import Mathlib

/-!
Verification of the tron-legacy-api image pipeline and engagement counters.

The definitions below are shallow embeddings of the Go source:
  * `internal/handlers/users.go` — avatar upload, EXIF orientation
    correction (`applyExifOrientation`, `flipHorizontal`, `flipVertical`,
    `rotate180`, `rotate90CW`, `rotate90CCW`), square-crop resize
    (`resizeImage`).
  * `internal/handlers/blog.go` — post-image upload, proportional resize
    (`resizeCover`).
  * `internal/handlers/engagement.go` — `RecordView`, `ToggleLike`,
    `CreateComment` against the Mongo-backed store.

A decoded picture is modelled as a pixel grid with explicit width and
height.  Pixels are abstract values (`Nat`); `0` plays the role of the
zero `RGBA` value that `image.NewRGBA` initialises destination buffers
with.  The Go functions iterate over source coordinates and `Set`
destination pixels; the functional embedding inverts that loop: a
destination pixel holds the source pixel that the loop wrote there, and
`0` where no `Set` reached (destination coordinates outside the source's
index range).  Only coordinates `x < width`, `y < height` are meaningful.
-/

structure Image where
  width : Nat
  height : Nat
  pix : Nat → Nat → Nat

/-- In-bounds pixel-by-pixel equality of two grids: same dimensions and
the same pixel at every coordinate inside those dimensions. -/
def ImageEqOn (a b : Image) : Prop :=
  a.width = b.width ∧ a.height = b.height ∧
    ∀ x, x < a.width → ∀ y, y < a.height → a.pix x y = b.pix x y

instance (a b : Image) : Decidable (ImageEqOn a b) := by
  unfold ImageEqOn; infer_instance

/-- Embedding of `flipHorizontal` (users.go): destination pixel
`(w-1-x, y)` receives source pixel `(x, y)` for every in-bounds source
coordinate, so destination `(x, y)` holds source `(w-1-x, y)`. -/
def flipHorizontal (img : Image) : Image :=
  ⟨img.width, img.height, fun x y =>
    if x < img.width ∧ y < img.height then img.pix (img.width - 1 - x) y else 0⟩

/-- Embedding of `flipVertical` (users.go). -/
def flipVertical (img : Image) : Image :=
  ⟨img.width, img.height, fun x y =>
    if x < img.width ∧ y < img.height then img.pix x (img.height - 1 - y) else 0⟩

/-- Embedding of `rotate180` (users.go). -/
def rotate180 (img : Image) : Image :=
  ⟨img.width, img.height, fun x y =>
    if x < img.width ∧ y < img.height then
      img.pix (img.width - 1 - x) (img.height - 1 - y)
    else 0⟩

/-- Embedding of `rotate90CW` (users.go): the loop sets destination
`(h-1-y, x)` from source `(x, y)`; the destination buffer has the
caller-supplied dimensions `newW × newH`. -/
def rotate90CW (img : Image) (newW newH : Nat) : Image :=
  ⟨newW, newH, fun x y =>
    if x < img.height ∧ y < img.width then
      img.pix y (img.height - 1 - x)
    else 0⟩

/-- Embedding of `rotate90CCW` (users.go): the loop sets destination
`(y, w-1-x)` from source `(x, y)`. -/
def rotate90CCW (img : Image) (newW newH : Nat) : Image :=
  ⟨newW, newH, fun x y =>
    if x < img.height ∧ y < img.width then
      img.pix (img.width - 1 - y) x
    else 0⟩

/-- Embedding of `applyExifOrientation` (users.go).  EXIF extraction is
I/O over the raw bytes; its outcome is passed in as `orient`: `none`
models both a failed `exif.Decode` and a missing/unreadable orientation
tag, `some t` a successfully read tag value.  The `switch` body is
translated case by case; `w`/`h` are the source dimensions captured
before the switch. -/
def applyExifOrientation (orient : Option Int) (img : Image) : Image :=
  match orient with
  | none => img
  | some t =>
    let w := img.width
    let h := img.height
    if t = 1 then img
    else if t = 2 then flipHorizontal img
    else if t = 3 then rotate180 img
    else if t = 4 then flipVertical img
    else if t = 5 then rotate90CCW (flipHorizontal img) h w
    else if t = 6 then rotate90CW img h w
    else if t = 7 then rotate90CW (flipHorizontal img) h w
    else if t = 8 then rotate90CCW img h w
    else img

/-- Spec-side meaning of "flip horizontal": the row order is kept and
each row is reversed. -/
def specFlipH (img : Image) : Image :=
  ⟨img.width, img.height, fun x y => img.pix (img.width - 1 - x) y⟩

/-- Spec-side meaning of "flip vertical". -/
def specFlipV (img : Image) : Image :=
  ⟨img.width, img.height, fun x y => img.pix x (img.height - 1 - y)⟩

/-- Spec-side meaning of "rotate 180°". -/
def specRot180 (img : Image) : Image :=
  ⟨img.width, img.height, fun x y => img.pix (img.width - 1 - x) (img.height - 1 - y)⟩

/-- Spec-side meaning of "rotate 90° clockwise": dimensions swap and the
source pixel `(x, y)` lands at `(h-1-y, x)`, so output `(x, y)` shows
source `(y, h-1-x)`. -/
def specRot90CW (img : Image) : Image :=
  ⟨img.height, img.width, fun x y => img.pix y (img.height - 1 - x)⟩

/-- Spec-side meaning of "rotate 90° counter-clockwise": dimensions swap
and the source pixel `(x, y)` lands at `(y, w-1-x)`, so output `(x, y)`
shows source `(w-1-y, x)`. -/
def specRot90CCW (img : Image) : Image :=
  ⟨img.height, img.width, fun x y => img.pix (img.width - 1 - y) x⟩

/-- A fixed concrete test grid used by witnesses: 2 wide, 3 tall, with
pairwise distinct pixel values. -/
def testImg : Image :=
  ⟨2, 3, fun x y => 10 * x + y⟩

/-- Per-tag inverse of the orientation correction, built from the
repository's own transform functions: the two flips and the 180°
rotation are self-inverse, the two 90° rotations invert each other, and
the two flip-then-rotate composites (tags 5 and 7, the EXIF transpose
and transverse) are self-inverse. -/
def exifInverse (t : Int) (g : Image) : Image :=
  if t = 2 then flipHorizontal g
  else if t = 3 then rotate180 g
  else if t = 4 then flipVertical g
  else if t = 5 then rotate90CCW (flipHorizontal g) g.height g.width
  else if t = 6 then rotate90CCW g g.height g.width
  else if t = 7 then rotate90CW (flipHorizontal g) g.height g.width
  else if t = 8 then rotate90CW g g.height g.width
  else g

/-- An axis-aligned rectangle `[x0, x1) × [y0, y1)`, mirroring Go's
`image.Rect(x0, y0, x1, y1)` for the non-negative rectangles used by
the resizers. -/
structure Rect where
  x0 : Nat
  y0 : Nat
  x1 : Nat
  y1 : Nat
deriving DecidableEq

/-- The centered square crop rectangle computed inside `resizeImage`
(users.go): a wider-than-tall source keeps the full height and crops the
sides symmetrically; otherwise the full width is kept and top/bottom are
cropped. -/
def cropSquare (srcWidth srcHeight : Nat) : Rect :=
  if srcHeight < srcWidth then
    let offset := (srcWidth - srcHeight) / 2
    ⟨offset, 0, offset + srcHeight, srcHeight⟩
  else
    let offset := (srcHeight - srcWidth) / 2
    ⟨0, offset, srcWidth, offset + srcWidth⟩

/-- Embedding of `resizeImage` (users.go): the destination buffer is a
fresh `width × height` grid; its pixels come from scaling the centered
square crop of the source with `draw.CatmullRom.Scale`.  The
interpolation filter is external library code, abstracted as the
`scale` argument, which receives the source grid and the crop
rectangle. -/
def resizeImage (scale : Image → Rect → Nat → Nat → Nat)
    (img : Image) (width height : Nat) : Image :=
  let cropRect := cropSquare img.width img.height
  ⟨width, height, fun x y => scale img cropRect x y⟩

/-- Embedding of `resizeCover` (blog.go): a source no wider than
`maxWidth` is returned unchanged (the very same grid); a wider source is
scaled to width `maxWidth` and height
`int(float64(srcH) * float64(maxWidth) / float64(srcW))`, i.e. the exact
ratio truncated toward zero, modelled as natural floor division (the
float64 products and quotient are exact to the rational for image-sized
operands).  As in `resizeImage`, the interpolation filter is external
and abstracted as `scale`. -/
def resizeCover (scale : Image → Rect → Nat → Nat → Nat)
    (img : Image) (maxWidth : Nat) : Image :=
  if img.width ≤ maxWidth then img
  else
    let newW := maxWidth
    let newH := img.height * maxWidth / img.width
    ⟨newW, newH, fun x y => scale img ⟨0, 0, img.width, img.height⟩ x y⟩

/-- Modelled from the spec: `round(sourceHeight × targetWidth /
sourceWidth)` read as rounding the rational `a / b` to the nearest
integer (half rounds up), written over naturals as `(2a + b) / (2b)`. -/
def roundNearest (a b : Nat) : Nat :=
  (2 * a + b) / (2 * b)

/-- The subset of the `BlogPost` document the engagement handlers touch
(models/blog.go).  Counters are Mongo `int64` fields adjusted only via
`$inc`, so they are modelled as `Int` — Mongo imposes no floor at
zero. -/
structure Post where
  id : Nat
  slug : String
  status : String
  viewCount : Int
  uniqueViewCount : Int
  likeCount : Int
  commentCount : Int
deriving DecidableEq

/-- A `PostComment` document (models/engagement.go), timestamps
omitted. -/
structure CommentRec where
  id : Nat
  postId : Nat
  userId : Nat
  content : String
deriving DecidableEq

/-- The relevant collections of the backing store: `posts`, and the
`post_views` / `post_likes` marker collections keyed by
`(postId, userId)`, plus `post_comments`. -/
structure Store where
  posts : List Post
  views : List (Nat × Nat)
  likes : List (Nat × Nat)
  comments : List CommentRec
deriving DecidableEq

/-- Embedding of `resolvePostBySlug` (engagement.go): `FindOne` on the
filter `{slug: slug, status: "published"}` — the first matching
document, `none` when absent. -/
def resolvePostBySlug (posts : List Post) (slug : String) : Option Post :=
  posts.find? (fun p => p.slug == slug && p.status == "published")

/-- `FindOne` on the filter `{_id: i}`. -/
def findById (posts : List Post) (i : Nat) : Option Post :=
  posts.find? (fun p => p.id == i)

/-- `UpdateOne` on the filter `{_id: i}`: applies `f` to the first
document with that id, leaving everything else in place. -/
def updateFirst (posts : List Post) (i : Nat) (f : Post → Post) : List Post :=
  match posts with
  | [] => []
  | p :: rest => if p.id = i then f p :: rest else p :: updateFirst rest i f

/-- `DeleteOne` on a marker collection: removes the first document with
the given `(postId, userId)` key. -/
def deleteOne (l : List (Nat × Nat)) (k : Nat × Nat) : List (Nat × Nat) :=
  match l with
  | [] => []
  | x :: rest => if x = k then rest else x :: deleteOne rest k

inductive ViewOutcome where
  | err (status : Nat)
  | ok (message : String)
deriving DecidableEq

/-- Embedding of `RecordView` (engagement.go).  Control flow: empty slug
→ 400; unresolved post → 404; otherwise `$inc view_count` on the post,
then — only for an authenticated caller — an upsert of the
`(postId, userId)` view marker with `$setOnInsert`, and `$inc
unique_view_count` exactly when the upsert actually inserted
(`UpsertedCount > 0`).  `markerUpsertFails` injects a store error on
that upsert (the code swallows it: `err == nil` gates the unique
increment and the handler still answers success); the other store
operations are taken to succeed. -/
def recordView (st : Store) (slug : String) (auth : Option Nat)
    (markerUpsertFails : Bool) : ViewOutcome × Store :=
  if slug = "" then (.err 400, st)
  else
    match resolvePostBySlug st.posts slug with
    | none => (.err 404, st)
    | some post =>
      let st1 := { st with
        posts := updateFirst st.posts post.id
          (fun p => { p with viewCount := p.viewCount + 1 }) }
      match auth with
      | none => (.ok "View recorded", st1)
      | some userId =>
        if markerUpsertFails then (.ok "View recorded", st1)
        else if (post.id, userId) ∈ st1.views then (.ok "View recorded", st1)
        else
          let st2 := { st1 with views := (post.id, userId) :: st1.views }
          let st3 := { st2 with
            posts := updateFirst st2.posts post.id
              (fun p => { p with uniqueViewCount := p.uniqueViewCount + 1 }) }
          (.ok "View recorded", st3)

inductive LikeOutcome where
  | err (status : Nat)
  | ok (liked : Bool) (likeCount : Int)
deriving DecidableEq

/-- Embedding of `ToggleLike` (engagement.go).  Control flow: empty slug
→ 400; unresolved post → 404; `DeleteOne` on the like marker — if one
was deleted, `$inc like_count -1` and `liked=false`, otherwise insert a
marker, `$inc like_count 1` and `liked=true`; finally the post is
re-read (`FindOne` by id) and its stored `like_count` is what the
response reports (`0`, the Go zero value, if the re-read finds
nothing). -/
def toggleLike (st : Store) (slug : String) (userId : Nat) :
    LikeOutcome × Store :=
  if slug = "" then (.err 400, st)
  else
    match resolvePostBySlug st.posts slug with
    | none => (.err 404, st)
    | some post =>
      if (post.id, userId) ∈ st.likes then
        let st1 := { st with
          likes := deleteOne st.likes (post.id, userId),
          posts := updateFirst st.posts post.id
            (fun p => { p with likeCount := p.likeCount - 1 }) }
        let fresh := match findById st1.posts post.id with
          | some p => p.likeCount
          | none => 0
        (.ok false fresh, st1)
      else
        let st1 := { st with
          likes := (post.id, userId) :: st.likes,
          posts := updateFirst st.posts post.id
            (fun p => { p with likeCount := p.likeCount + 1 }) }
        let fresh := match findById st1.posts post.id with
          | some p => p.likeCount
          | none => 0
        (.ok true fresh, st1)

inductive CommentOutcome where
  | err (status : Nat)
  | created (c : CommentRec)
deriving DecidableEq

/-- Go's `len` on a string counts UTF-8 bytes, not characters. -/
def goLen (s : String) : Nat := s.utf8ByteSize

/-- Embedding of `CreateComment` (engagement.go).  Control flow: empty
slug → 400; `len(req.Content)` outside `[1, 2000]` → 400 (before any
store access); unresolved post → 404; otherwise the comment document is
inserted and then the post's `comment_count` is incremented. -/
def createComment (st : Store) (slug : String) (userId : Nat)
    (content : String) (newId : Nat) : CommentOutcome × Store :=
  if slug = "" then (.err 400, st)
  else if goLen content < 1 ∨ goLen content > 2000 then (.err 400, st)
  else
    match resolvePostBySlug st.posts slug with
    | none => (.err 404, st)
    | some post =>
      let c : CommentRec := ⟨newId, post.id, userId, content⟩
      let st1 := { st with
        comments := st.comments ++ [c],
        posts := updateFirst st.posts post.id
          (fun p => { p with commentCount := p.commentCount + 1 }) }
      (.created c, st1)

/-- A concrete published post and single-post store used by witnesses. -/
def testPost : Post := ⟨1, "s", "published", 7, 3, 5, 2⟩

def testStore : Store := ⟨[testPost], [], [], []⟩

/-- n-fold iteration of the like toggle, keeping only the store. -/
def toggleIter (slug : String) (u : Nat) : Nat → Store → Store
  | 0, st => st
  | n + 1, st => toggleIter slug u n (toggleLike st slug u).2

/-- The shortest content whose character count is within [1, 2000] but
whose UTF-8 byte count is not: 667 euro signs, 3 bytes each. -/
def euroContent : String := String.mk (List.replicate 667 '€')

/-- The outcome each fallible step of `UploadAvatar` (users.go) takes in
a given request, in the order the handler checks them.  True means the
step succeeds. -/
structure AvatarRequest where
  authenticated : Bool
  parseFormOk : Bool
  hasFile : Bool
  contentType : String
  readOk : Bool
  decodeOk : Bool
  encodeOk : Bool
  updateOk : Bool
  profileMatched : Bool
deriving DecidableEq

/-- What a handler run produces: the HTTP status it answers with, and
whether it emitted its structured log event (`slog.Info`) and its
handler metrics counter increment (`middleware.Inc*`). -/
structure UploadResult where
  status : Nat
  logged : Bool
  metricIncremented : Bool
deriving DecidableEq

/-- Embedding of `UploadAvatar`'s control flow (users.go): auth → 5 MiB
parse limit (413) → `avatar` form file (400) → declared Content-Type in
{jpeg, png} (400) → read (400) → decode (400) → EXIF correction and
resize (infallible) → JPEG encode (500) → profile update (500 / 404
when unmatched) → on success `IncAvatarUpload` and
`slog.Info("avatar_uploaded", ...)`. -/
def uploadAvatar (rq : AvatarRequest) : UploadResult :=
  if !rq.authenticated then ⟨401, false, false⟩
  else if !rq.parseFormOk then ⟨413, false, false⟩
  else if !rq.hasFile then ⟨400, false, false⟩
  else if rq.contentType ≠ "image/jpeg" ∧ rq.contentType ≠ "image/png" then
    ⟨400, false, false⟩
  else if !rq.readOk then ⟨400, false, false⟩
  else if !rq.decodeOk then ⟨400, false, false⟩
  else if !rq.encodeOk then ⟨500, false, false⟩
  else if !rq.updateOk then ⟨500, false, false⟩
  else if !rq.profileMatched then ⟨404, false, false⟩
  else ⟨200, true, true⟩

/-- The outcome each fallible step of `UploadPostImage` (blog.go) takes,
in handler order.  `detectedType` is what `http.DetectContentType`
sniffs from the bytes. -/
structure PostImageRequest where
  authenticated : Bool
  parseFormOk : Bool
  hasFile : Bool
  readOk : Bool
  detectedType : String
  decodeOk : Bool
  encodeOk : Bool
  insertOk : Bool
deriving DecidableEq

/-- Embedding of `UploadPostImage`'s control flow (blog.go): auth → 5
MiB parse limit (413) → `image` form file (400) → read (400) → sniffed
type in {jpeg, png, webp} (400) → decode (400) → resize (infallible) →
JPEG encode (500) → insert into the images collection (500) → on
success `slog.Info("blog_image_uploaded", ...)` only — the handler
calls no `middleware.Inc*` metrics counter. -/
def uploadPostImage (rq : PostImageRequest) : UploadResult :=
  if !rq.authenticated then ⟨401, false, false⟩
  else if !rq.parseFormOk then ⟨413, false, false⟩
  else if !rq.hasFile then ⟨400, false, false⟩
  else if !rq.readOk then ⟨400, false, false⟩
  else if rq.detectedType ≠ "image/jpeg" ∧ rq.detectedType ≠ "image/png"
      ∧ rq.detectedType ≠ "image/webp" then ⟨400, false, false⟩
  else if !rq.decodeOk then ⟨400, false, false⟩
  else if !rq.encodeOk then ⟨500, false, false⟩
  else if !rq.insertOk then ⟨500, false, false⟩
  else ⟨200, true, false⟩

theorem pix_congr (img : Image) {a b c d : Nat} (h1 : a = c) (h2 : b = d) :
    img.pix a b = img.pix c d := by rw [h1, h2]

theorem applyExif_1 (img : Image) : applyExifOrientation (some 1) img = img := rfl

theorem applyExif_2 (img : Image) :
    applyExifOrientation (some 2) img = flipHorizontal img := rfl

theorem applyExif_3 (img : Image) :
    applyExifOrientation (some 3) img = rotate180 img := rfl

theorem applyExif_4 (img : Image) :
    applyExifOrientation (some 4) img = flipVertical img := rfl

theorem applyExif_5 (img : Image) :
    applyExifOrientation (some 5) img
      = rotate90CCW (flipHorizontal img) img.height img.width := rfl

theorem applyExif_6 (img : Image) :
    applyExifOrientation (some 6) img = rotate90CW img img.height img.width := rfl

theorem applyExif_7 (img : Image) :
    applyExifOrientation (some 7) img
      = rotate90CW (flipHorizontal img) img.height img.width := rfl

theorem applyExif_8 (img : Image) :
    applyExifOrientation (some 8) img = rotate90CCW img img.height img.width := rfl

/-- C1: with no EXIF data or no orientation tag (`none`) or a tag value
outside 1–8 the corrector returns the grid unchanged; for tags 1–8 it
applies exactly the spec table's transform (1 identity, 2 flip
horizontal, 3 rotate 180°, 4 flip vertical, 5 flip horizontal then
rotate 90° CCW, 6 rotate 90° CW, 7 flip horizontal then rotate 90° CW,
8 rotate 90° CCW), and tags 5–8 swap width and height. -/
theorem exif_orientation_table (img : Image) (t : Int) :
    applyExifOrientation none img = img
    ∧ (t < 1 ∨ 8 < t → applyExifOrientation (some t) img = img)
    ∧ applyExifOrientation (some 1) img = img
    ∧ ImageEqOn (applyExifOrientation (some 2) img) (specFlipH img)
    ∧ ImageEqOn (applyExifOrientation (some 3) img) (specRot180 img)
    ∧ ImageEqOn (applyExifOrientation (some 4) img) (specFlipV img)
    ∧ ImageEqOn (applyExifOrientation (some 5) img) (specRot90CCW (specFlipH img))
    ∧ ImageEqOn (applyExifOrientation (some 6) img) (specRot90CW img)
    ∧ ImageEqOn (applyExifOrientation (some 7) img) (specRot90CW (specFlipH img))
    ∧ ImageEqOn (applyExifOrientation (some 8) img) (specRot90CCW img)
    ∧ (∀ u : Int, 5 ≤ u → u ≤ 8 →
        (applyExifOrientation (some u) img).width = img.height
        ∧ (applyExifOrientation (some u) img).height = img.width) := by
  refine ⟨rfl, ?_, rfl, ?_, ?_, ?_, ?_, ?_, ?_, ?_, ?_⟩
  · intro ht
    simp only [applyExifOrientation]
    split_ifs with c1 c2 c3 c4 c5 c6 c7 c8 <;> first | rfl | omega
  · refine ⟨rfl, rfl, fun x hx y hy => ?_⟩
    have hx' : x < img.width := hx
    have hy' : y < img.height := hy
    rw [applyExif_2]
    simp [flipHorizontal, specFlipH, hx', hy']
  · refine ⟨rfl, rfl, fun x hx y hy => ?_⟩
    have hx' : x < img.width := hx
    have hy' : y < img.height := hy
    rw [applyExif_3]
    simp [rotate180, specRot180, hx', hy']
  · refine ⟨rfl, rfl, fun x hx y hy => ?_⟩
    have hx' : x < img.width := hx
    have hy' : y < img.height := hy
    rw [applyExif_4]
    simp [flipVertical, specFlipV, hx', hy']
  · refine ⟨rfl, rfl, fun x hx y hy => ?_⟩
    have hx' : x < img.height := hx
    have hy' : y < img.width := hy
    rw [applyExif_5]
    simp only [rotate90CCW, flipHorizontal, specRot90CCW, specFlipH]
    split_ifs <;> first
      | exact pix_congr img (by omega) (by omega)
      | (exfalso; omega)
  · refine ⟨rfl, rfl, fun x hx y hy => ?_⟩
    have hx' : x < img.height := hx
    have hy' : y < img.width := hy
    rw [applyExif_6]
    simp only [rotate90CW, specRot90CW]
    split_ifs <;> first
      | exact pix_congr img (by omega) (by omega)
      | (exfalso; omega)
  · refine ⟨rfl, rfl, fun x hx y hy => ?_⟩
    have hx' : x < img.height := hx
    have hy' : y < img.width := hy
    rw [applyExif_7]
    simp only [rotate90CW, flipHorizontal, specRot90CW, specFlipH]
    split_ifs <;> first
      | exact pix_congr img (by omega) (by omega)
      | (exfalso; omega)
  · refine ⟨rfl, rfl, fun x hx y hy => ?_⟩
    have hx' : x < img.height := hx
    have hy' : y < img.width := hy
    rw [applyExif_8]
    simp only [rotate90CCW, specRot90CCW]
    split_ifs <;> first
      | exact pix_congr img (by omega) (by omega)
      | (exfalso; omega)
  · intro u h5 h8
    have hu : u = 5 ∨ u = 6 ∨ u = 7 ∨ u = 8 := by omega
    rcases hu with rfl | rfl | rfl | rfl <;> exact ⟨rfl, rfl⟩

/-- C1 witness: the table theorem applied at the concrete test grid,
discharging the out-of-range hypothesis at tag 0 and the 5–8 range
hypotheses at tag 6. -/
theorem exif_orientation_table_witness :
    ((0:Int) < 1 ∨ 8 < (0:Int))
    ∧ applyExifOrientation (some 0) testImg = testImg
    ∧ ImageEqOn (applyExifOrientation (some 6) testImg) (specRot90CW testImg)
    ∧ (5 ≤ (6:Int) ∧ (6:Int) ≤ 8)
    ∧ (applyExifOrientation (some 6) testImg).width = testImg.height := by
  obtain ⟨-, h2, -, -, -, -, -, h8, -, -, h11⟩ := exif_orientation_table testImg 0
  exact ⟨Or.inl (by decide), h2 (Or.inl (by decide)), h8, ⟨by decide, by decide⟩,
    (h11 6 (by decide) (by decide)).1⟩

theorem exifInverse_1 (g : Image) : exifInverse 1 g = g := rfl

theorem exifInverse_2 (g : Image) : exifInverse 2 g = flipHorizontal g := rfl

theorem exifInverse_3 (g : Image) : exifInverse 3 g = rotate180 g := rfl

theorem exifInverse_4 (g : Image) : exifInverse 4 g = flipVertical g := rfl

theorem exifInverse_5 (g : Image) :
    exifInverse 5 g = rotate90CCW (flipHorizontal g) g.height g.width := rfl

theorem exifInverse_6 (g : Image) :
    exifInverse 6 g = rotate90CCW g g.height g.width := rfl

theorem exifInverse_7 (g : Image) :
    exifInverse 7 g = rotate90CW (flipHorizontal g) g.height g.width := rfl

theorem exifInverse_8 (g : Image) :
    exifInverse 8 g = rotate90CW g g.height g.width := rfl

/-- C2: for each of the 8 EXIF tags, the correction followed by its
inverse restores the original grid pixel by pixel and restores the
original dimensions (tags 5–8 swap dimensions twice). -/
theorem exif_roundtrip (img : Image) (t : Int) (h1 : 1 ≤ t) (h8 : t ≤ 8) :
    ImageEqOn (exifInverse t (applyExifOrientation (some t) img)) img := by
  have ht : t = 1 ∨ t = 2 ∨ t = 3 ∨ t = 4 ∨ t = 5 ∨ t = 6 ∨ t = 7 ∨ t = 8 := by omega
  rcases ht with rfl | rfl | rfl | rfl | rfl | rfl | rfl | rfl
  · exact ⟨rfl, rfl, fun x _ y _ => rfl⟩
  · refine ⟨rfl, rfl, fun x hx y hy => ?_⟩
    have hx' : x < img.width := hx
    have hy' : y < img.height := hy
    rw [exifInverse_2, applyExif_2]
    simp only [flipHorizontal]
    split_ifs <;> first
      | exact pix_congr img (by omega) (by omega)
      | (exfalso; omega)
  · refine ⟨rfl, rfl, fun x hx y hy => ?_⟩
    have hx' : x < img.width := hx
    have hy' : y < img.height := hy
    rw [exifInverse_3, applyExif_3]
    simp only [rotate180]
    split_ifs <;> first
      | exact pix_congr img (by omega) (by omega)
      | (exfalso; omega)
  · refine ⟨rfl, rfl, fun x hx y hy => ?_⟩
    have hx' : x < img.width := hx
    have hy' : y < img.height := hy
    rw [exifInverse_4, applyExif_4]
    simp only [flipVertical]
    split_ifs <;> first
      | exact pix_congr img (by omega) (by omega)
      | (exfalso; omega)
  · refine ⟨rfl, rfl, fun x hx y hy => ?_⟩
    have hx' : x < img.width := hx
    have hy' : y < img.height := hy
    rw [exifInverse_5, applyExif_5]
    simp only [rotate90CCW, flipHorizontal]
    split_ifs <;> first
      | exact pix_congr img (by omega) (by omega)
      | (exfalso; omega)
  · refine ⟨rfl, rfl, fun x hx y hy => ?_⟩
    have hx' : x < img.width := hx
    have hy' : y < img.height := hy
    rw [exifInverse_6, applyExif_6]
    simp only [rotate90CCW, rotate90CW]
    split_ifs <;> first
      | exact pix_congr img (by omega) (by omega)
      | (exfalso; omega)
  · refine ⟨rfl, rfl, fun x hx y hy => ?_⟩
    have hx' : x < img.width := hx
    have hy' : y < img.height := hy
    rw [exifInverse_7, applyExif_7]
    simp only [rotate90CW, flipHorizontal]
    split_ifs <;> first
      | exact pix_congr img (by omega) (by omega)
      | (exfalso; omega)
  · refine ⟨rfl, rfl, fun x hx y hy => ?_⟩
    have hx' : x < img.width := hx
    have hy' : y < img.height := hy
    rw [exifInverse_8, applyExif_8]
    simp only [rotate90CW, rotate90CCW]
    split_ifs <;> first
      | exact pix_congr img (by omega) (by omega)
      | (exfalso; omega)

/-- C2 witness: the round-trip theorem at the concrete test grid and
tag 6, with the range hypotheses discharged by computation. -/
theorem exif_roundtrip_witness :
    (1:Int) ≤ 6 ∧ (6:Int) ≤ 8
    ∧ ImageEqOn (exifInverse 6 (applyExifOrientation (some 6) testImg)) testImg :=
  ⟨by decide, by decide, exif_roundtrip testImg 6 (by decide) (by decide)⟩

/-- C3: the avatar resize always yields an exactly `target × target`
grid whatever the source dimensions, and the rectangle it scales from is
the largest centered square crop of the source: side `min w h`,
contained in the source, with the longer dimension cropped symmetrically
(offset `(longer - shorter) / 2`). -/
theorem resize_square_crop (scale : Image → Rect → Nat → Nat → Nat)
    (img : Image) (target : Nat) :
    (resizeImage scale img target target).width = target
    ∧ (resizeImage scale img target target).height = target
    ∧ (let r := cropSquare img.width img.height
       let side := min img.width img.height
       r.x1 - r.x0 = side ∧ r.y1 - r.y0 = side
       ∧ r.x0 + side = r.x1 ∧ r.y0 + side = r.y1
       ∧ r.x1 ≤ img.width ∧ r.y1 ≤ img.height
       ∧ r.x0 = (img.width - side) / 2 ∧ r.y0 = (img.height - side) / 2)
    ∧ (∀ x y, (resizeImage scale img target target).pix x y
        = scale img (cropSquare img.width img.height) x y) := by
  refine ⟨rfl, rfl, ?_, fun x y => rfl⟩
  simp only [cropSquare]
  split_ifs with hlt <;> dsimp only <;>
    exact ⟨by omega, by omega, by omega, by omega, by omega, by omega, by omega, by omega⟩

/-- C4 counterexample: an 801 × 1 source scaled to max width 800.  The
code truncates `1 * 800 / 801` to height 0, while the claim's
`round(sourceHeight × targetWidth / sourceWidth)` is 1, so the resized
height is not the rounded ratio. -/
theorem resize_cover_not_round :
    (resizeCover (fun _ _ _ _ => 0) ⟨801, 1, fun _ _ => 0⟩ 800).height = 0
    ∧ roundNearest (1 * 800) 801 = 1
    ∧ (resizeCover (fun _ _ _ _ => 0) ⟨801, 1, fun _ _ => 0⟩ 800).height
        ≠ roundNearest
            ((⟨801, 1, fun _ _ => 0⟩ : Image).height * 800)
            (⟨801, 1, fun _ _ => 0⟩ : Image).width := by
  refine ⟨rfl, rfl, ?_⟩
  decide

/-- C4 (amended): the proportional resize returns the input unchanged
when the source width is at most the target max width (never upscales);
otherwise the output width equals the max width and the output height is
`sourceHeight × maxWidth / sourceWidth` truncated (floor division) —
not rounded to nearest as the original claim stated. -/
theorem resize_cover_proportional (scale : Image → Rect → Nat → Nat → Nat)
    (img : Image) (maxWidth : Nat) :
    (img.width ≤ maxWidth → resizeCover scale img maxWidth = img)
    ∧ (maxWidth < img.width →
        (resizeCover scale img maxWidth).width = maxWidth
        ∧ (resizeCover scale img maxWidth).height
            = img.height * maxWidth / img.width) := by
  constructor
  · intro h
    simp [resizeCover, h]
  · intro h
    have h' : ¬ img.width ≤ maxWidth := by omega
    simp [resizeCover, h']

/-- C4 witness: the amended theorem at a 1000 × 500 source and max
width 800 (downscale: width 800, height ⌊500·800/1000⌋ = 400) and at a
300 × 500 source (no-op). -/
theorem resize_cover_proportional_witness :
    (1000 : Nat) > 800
    ∧ (resizeCover (fun _ _ _ _ => 0) ⟨1000, 500, fun _ _ => 0⟩ 800).width = 800
    ∧ (resizeCover (fun _ _ _ _ => 0) ⟨1000, 500, fun _ _ => 0⟩ 800).height = 400
    ∧ (300 : Nat) ≤ 800
    ∧ resizeCover (fun _ _ _ _ => 0) ⟨300, 500, fun _ _ => 0⟩ 800
        = ⟨300, 500, fun _ _ => 0⟩ := by
  obtain ⟨-, h2⟩ :=
    resize_cover_proportional (fun _ _ _ _ => 0) ⟨1000, 500, fun _ _ => 0⟩ 800
  obtain ⟨hw, hh⟩ := h2 (by decide)
  obtain ⟨h1, -⟩ :=
    resize_cover_proportional (fun _ _ _ _ => 0) ⟨300, 500, fun _ _ => 0⟩ 800
  exact ⟨by decide, hw, by rw [hh]; rfl, by decide, h1 (by decide)⟩

theorem deleteOne_cons_self (l : List (Nat × Nat)) (k : Nat × Nat) :
    deleteOne (k :: l) k = l := by
  simp [deleteOne]

theorem deleteOne_sublist (k : Nat × Nat) :
    ∀ l : List (Nat × Nat), List.Sublist (deleteOne l k) l := by
  intro l
  induction l with
  | nil => simp [deleteOne]
  | cons x rest ih =>
    by_cases hx : x = k
    · subst hx; simp [deleteOne]
    · simpa [deleteOne, hx] using List.Sublist.cons₂ x ih

theorem deleteOne_nodup (k : Nat × Nat) (l : List (Nat × Nat)) (h : l.Nodup) :
    (deleteOne l k).Nodup :=
  (deleteOne_sublist k l).nodup h

theorem not_mem_deleteOne (k : Nat × Nat) :
    ∀ l : List (Nat × Nat), l.Nodup → k ∉ deleteOne l k := by
  intro l
  induction l with
  | nil => simp [deleteOne]
  | cons x rest ih =>
    intro hnd
    rcases List.nodup_cons.mp hnd with ⟨hx, hrest⟩
    by_cases hxk : x = k
    · subst hxk; simpa [deleteOne] using hx
    · simp only [deleteOne, if_neg hxk, List.mem_cons]
      rintro (rfl | hmem)
      · exact hxk rfl
      · exact ih hrest hmem

theorem updateFirst_updateFirst (i : Nat) (f g : Post → Post)
    (hf : ∀ p, (f p).id = p.id) :
    ∀ ps : List Post,
      updateFirst (updateFirst ps i f) i g = updateFirst ps i (fun p => g (f p)) := by
  intro ps
  induction ps with
  | nil => rfl
  | cons r rest ih =>
    by_cases hr : r.id = i
    · simp [updateFirst, hr, hf r]
    · simp [updateFirst, hr, ih]

theorem find?_cons_true {q : Post → Bool} {r : Post} {rest : List Post}
    (h : q r = true) : (r :: rest).find? q = some r := by
  simp [List.find?, h]

theorem find?_cons_false {q : Post → Bool} {r : Post} {rest : List Post}
    (h : q r = false) : (r :: rest).find? q = rest.find? q := by
  simp [List.find?, h]

/-- If `find?` locates `p` and `p` is also the first document with its
id, then updating by id rewrites exactly the found document: both
lookups on the updated list return `f p` (provided `f` keeps the id and
the search predicate's verdict). -/
theorem find_update_both (q : Post → Bool) (f : Post → Post) :
    ∀ (ps : List Post) (p : Post),
      ps.find? q = some p → findById ps p.id = some p →
      q (f p) = q p → (f p).id = p.id →
      (updateFirst ps p.id f).find? q = some (f p)
      ∧ findById (updateFirst ps p.id f) p.id = some (f p) := by
  intro ps
  induction ps with
  | nil => intro p hq _ _ _; simp at hq
  | cons r rest ih =>
    intro p hq hid hqf hidf
    cases hqr : q r with
    | true =>
      have hrp : r = p := by
        rw [find?_cons_true hqr, Option.some.injEq] at hq
        exact hq
      subst hrp
      have hup : updateFirst (r :: rest) r.id f = f r :: rest := by
        simp [updateFirst]
      have hqfr : q (f r) = true := hqf.trans hqr
      have hbeq : ((f r).id == r.id) = true := by simp [hidf]
      rw [hup]
      exact ⟨find?_cons_true hqfr,
        find?_cons_true (q := fun x => x.id == r.id) hbeq⟩
    | false =>
      rw [find?_cons_false hqr] at hq
      have hqp : q p = true := List.find?_some hq
      have hrid : r.id ≠ p.id := by
        intro h
        have hb : ((fun x : Post => x.id == p.id) r) = true := by simp [h]
        have hrp : r = p := by
          rw [findById, find?_cons_true hb, Option.some.injEq] at hid
          exact hid
        rw [hrp, hqp] at hqr
        cases hqr
      have hbf : ((fun x : Post => x.id == p.id) r) = false := by simp [hrid]
      rw [findById, find?_cons_false hbf] at hid
      obtain ⟨h1, h2⟩ := ih p hq hid hqf hidf
      have hup : updateFirst (r :: rest) p.id f = r :: updateFirst rest p.id f := by
        simp [updateFirst, hrid]
      rw [hup]
      refine ⟨?_, ?_⟩
      · rw [find?_cons_false hqr]; exact h1
      · rw [findById, find?_cons_false hbf]
        exact h2

theorem recordView_eq_anon (st : Store) (slug : String) (p : Post)
    (hslug : ¬ slug = "") (hres : resolvePostBySlug st.posts slug = some p) :
    recordView st slug none false
      = (ViewOutcome.ok "View recorded",
         { st with
             posts := updateFirst st.posts p.id
               (fun r => { r with viewCount := r.viewCount + 1 }) }) := by
  simp [recordView, hslug, hres]

theorem recordView_eq_seen (st : Store) (slug : String) (u : Nat) (p : Post)
    (hslug : ¬ slug = "") (hres : resolvePostBySlug st.posts slug = some p)
    (hmem : (p.id, u) ∈ st.views) :
    recordView st slug (some u) false
      = (ViewOutcome.ok "View recorded",
         { st with
             posts := updateFirst st.posts p.id
               (fun r => { r with viewCount := r.viewCount + 1 }) }) := by
  simp [recordView, hslug, hres, hmem]

theorem recordView_eq_new (st : Store) (slug : String) (u : Nat) (p : Post)
    (hslug : ¬ slug = "") (hres : resolvePostBySlug st.posts slug = some p)
    (hmem : (p.id, u) ∉ st.views) :
    recordView st slug (some u) false
      = (ViewOutcome.ok "View recorded",
         { st with
             posts := updateFirst
               (updateFirst st.posts p.id
                 (fun r => { r with viewCount := r.viewCount + 1 }))
               p.id (fun r => { r with uniqueViewCount := r.uniqueViewCount + 1 }),
             views := (p.id, u) :: st.views }) := by
  simp [recordView, hslug, hres, hmem]

theorem recordView_eq_markerfail (st : Store) (slug : String) (u : Nat) (p : Post)
    (hslug : ¬ slug = "") (hres : resolvePostBySlug st.posts slug = some p) :
    recordView st slug (some u) true
      = (ViewOutcome.ok "View recorded",
         { st with
             posts := updateFirst st.posts p.id
               (fun r => { r with viewCount := r.viewCount + 1 }) }) := by
  simp [recordView, hslug, hres]

/-- C5: a successful view recording on a resolvable published post
always answers success and increments exactly `viewCount`; additionally
`uniqueViewCount` is incremented — and the `(postId, userId)` marker
created — if and only if the caller is authenticated and had no marker
yet; an existing marker leaves every counter but `viewCount`, and the
marker collection, unchanged.  Likes and comments are never touched. -/
theorem record_view_counts (st : Store) (slug : String) (auth : Option Nat)
    (p : Post)
    (hslug : slug ≠ "")
    (hres : resolvePostBySlug st.posts slug = some p)
    (hid : findById st.posts p.id = some p) :
    (recordView st slug auth false).1 = ViewOutcome.ok "View recorded"
    ∧ (auth = none →
        findById (recordView st slug auth false).2.posts p.id
          = some { p with viewCount := p.viewCount + 1 }
        ∧ (recordView st slug auth false).2.views = st.views)
    ∧ (∀ u, auth = some u → (p.id, u) ∉ st.views →
        findById (recordView st slug auth false).2.posts p.id
          = some { p with viewCount := p.viewCount + 1,
                          uniqueViewCount := p.uniqueViewCount + 1 }
        ∧ (recordView st slug auth false).2.views = (p.id, u) :: st.views)
    ∧ (∀ u, auth = some u → (p.id, u) ∈ st.views →
        findById (recordView st slug auth false).2.posts p.id
          = some { p with viewCount := p.viewCount + 1 }
        ∧ (recordView st slug auth false).2.views = st.views)
    ∧ (recordView st slug auth false).2.likes = st.likes
    ∧ (recordView st slug auth false).2.comments = st.comments := by
  have hres' : st.posts.find?
      (fun r => r.slug == slug && r.status == "published") = some p := hres
  obtain ⟨A1, A2⟩ := find_update_both _
    (fun r => { r with viewCount := r.viewCount + 1 }) st.posts p hres' hid rfl rfl
  obtain ⟨-, B2⟩ := find_update_both _
    (fun r => { r with uniqueViewCount := r.uniqueViewCount + 1 }) _ _ A1 A2 rfl rfl
  refine ⟨?_, ?_, ?_, ?_, ?_, ?_⟩
  · rcases auth with _ | u
    · rw [recordView_eq_anon st slug p hslug hres]
    · by_cases hmem : (p.id, u) ∈ st.views
      · rw [recordView_eq_seen st slug u p hslug hres hmem]
      · rw [recordView_eq_new st slug u p hslug hres hmem]
  · rintro rfl
    rw [recordView_eq_anon st slug p hslug hres]
    exact ⟨A2, rfl⟩
  · intro u hu hmem
    subst hu
    rw [recordView_eq_new st slug u p hslug hres hmem]
    exact ⟨B2, rfl⟩
  · intro u hu hmem
    subst hu
    rw [recordView_eq_seen st slug u p hslug hres hmem]
    exact ⟨A2, rfl⟩
  · rcases auth with _ | u
    · rw [recordView_eq_anon st slug p hslug hres]
    · by_cases hmem : (p.id, u) ∈ st.views
      · rw [recordView_eq_seen st slug u p hslug hres hmem]
      · rw [recordView_eq_new st slug u p hslug hres hmem]
  · rcases auth with _ | u
    · rw [recordView_eq_anon st slug p hslug hres]
    · by_cases hmem : (p.id, u) ∈ st.views
      · rw [recordView_eq_seen st slug u p hslug hres hmem]
      · rw [recordView_eq_new st slug u p hslug hres hmem]

/-- C5 witness: the theorem at the concrete one-post store, first view
by user 4 — `viewCount` and `uniqueViewCount` both advance and the
marker appears. -/
theorem record_view_counts_witness :
    "s" ≠ ""
    ∧ resolvePostBySlug testStore.posts "s" = some testPost
    ∧ findById testStore.posts testPost.id = some testPost
    ∧ (1, 4) ∉ testStore.views
    ∧ findById (recordView testStore "s" (some 4) false).2.posts testPost.id
        = some { testPost with
                   viewCount := testPost.viewCount + 1,
                   uniqueViewCount := testPost.uniqueViewCount + 1 }
    ∧ (recordView testStore "s" (some 4) false).2.views = [(1, 4)] := by
  obtain ⟨-, -, h3, -, -, -⟩ :=
    record_view_counts testStore "s" (some 4) testPost
      (by decide) (by decide) (by decide)
  obtain ⟨hA, hB⟩ := h3 4 rfl (by decide)
  exact ⟨by decide, by decide, by decide, by decide, hA, by rw [hB]; rfl⟩

/-- C10: a failing view-marker upsert for an authenticated caller is
swallowed — the handler still answers success ("View recorded"), the
unconditional `viewCount` increment is kept, and `uniqueViewCount`, the
marker collection, likes and comments are untouched. -/
theorem record_view_marker_failure (st : Store) (slug : String) (u : Nat)
    (p : Post)
    (hslug : slug ≠ "")
    (hres : resolvePostBySlug st.posts slug = some p)
    (hid : findById st.posts p.id = some p) :
    (recordView st slug (some u) true).1 = ViewOutcome.ok "View recorded"
    ∧ findById (recordView st slug (some u) true).2.posts p.id
        = some { p with viewCount := p.viewCount + 1 }
    ∧ (recordView st slug (some u) true).2.views = st.views
    ∧ (recordView st slug (some u) true).2.likes = st.likes
    ∧ (recordView st slug (some u) true).2.comments = st.comments := by
  have hres' : st.posts.find?
      (fun r => r.slug == slug && r.status == "published") = some p := hres
  obtain ⟨A1, A2⟩ := find_update_both _
    (fun r => { r with viewCount := r.viewCount + 1 }) st.posts p hres' hid rfl rfl
  rw [recordView_eq_markerfail st slug u p hslug hres]
  exact ⟨rfl, A2, rfl, rfl, rfl⟩

/-- C10 witness: the theorem at the concrete one-post store with a
failing marker upsert for user 4. -/
theorem record_view_marker_failure_witness :
    "s" ≠ ""
    ∧ resolvePostBySlug testStore.posts "s" = some testPost
    ∧ findById testStore.posts testPost.id = some testPost
    ∧ (recordView testStore "s" (some 4) true).1 = ViewOutcome.ok "View recorded"
    ∧ (recordView testStore "s" (some 4) true).2.views = testStore.views := by
  have h := record_view_marker_failure testStore "s" 4 testPost
    (by decide) (by decide) (by decide)
  exact ⟨by decide, by decide, by decide, h.1, h.2.2.1⟩

theorem toggleLike_eq_mem (st : Store) (slug : String) (u : Nat) (p : Post)
    (hslug : ¬ slug = "") (hres : resolvePostBySlug st.posts slug = some p)
    (hid : findById st.posts p.id = some p)
    (hmem : (p.id, u) ∈ st.likes) :
    toggleLike st slug u
      = (LikeOutcome.ok false (p.likeCount - 1),
         { st with
             likes := deleteOne st.likes (p.id, u),
             posts := updateFirst st.posts p.id
               (fun r => { r with likeCount := r.likeCount - 1 }) }) := by
  have hres' : st.posts.find?
      (fun r => r.slug == slug && r.status == "published") = some p := hres
  obtain ⟨-, A2⟩ := find_update_both _
    (fun r => { r with likeCount := r.likeCount - 1 }) st.posts p hres' hid rfl rfl
  simp [toggleLike, hslug, hres, hmem, A2]

theorem toggleLike_eq_not_mem (st : Store) (slug : String) (u : Nat) (p : Post)
    (hslug : ¬ slug = "") (hres : resolvePostBySlug st.posts slug = some p)
    (hid : findById st.posts p.id = some p)
    (hmem : (p.id, u) ∉ st.likes) :
    toggleLike st slug u
      = (LikeOutcome.ok true (p.likeCount + 1),
         { st with
             likes := (p.id, u) :: st.likes,
             posts := updateFirst st.posts p.id
               (fun r => { r with likeCount := r.likeCount + 1 }) }) := by
  have hres' : st.posts.find?
      (fun r => r.slug == slug && r.status == "published") = some p := hres
  obtain ⟨-, A2⟩ := find_update_both _
    (fun r => { r with likeCount := r.likeCount + 1 }) st.posts p hres' hid rfl rfl
  simp [toggleLike, hslug, hres, hmem, A2]

/-- C6: a successful like toggle on a resolvable published post deletes
an existing `(postId, userId)` marker, decrements `likeCount` and
reports `liked=false`; with no marker it inserts one, increments
`likeCount` and reports `liked=true`; and in either case the
`likeCount` in the response is exactly the value stored on the post in
the final store (the fresh re-read), not a separately computed one. -/
theorem toggle_like_transition (st : Store) (slug : String) (u : Nat) (p : Post)
    (hslug : slug ≠ "")
    (hres : resolvePostBySlug st.posts slug = some p)
    (hid : findById st.posts p.id = some p) :
    ((p.id, u) ∈ st.likes →
       (toggleLike st slug u).1 = LikeOutcome.ok false (p.likeCount - 1)
       ∧ (toggleLike st slug u).2.likes = deleteOne st.likes (p.id, u)
       ∧ findById (toggleLike st slug u).2.posts p.id
           = some { p with likeCount := p.likeCount - 1 })
    ∧ ((p.id, u) ∉ st.likes →
       (toggleLike st slug u).1 = LikeOutcome.ok true (p.likeCount + 1)
       ∧ (toggleLike st slug u).2.likes = (p.id, u) :: st.likes
       ∧ findById (toggleLike st slug u).2.posts p.id
           = some { p with likeCount := p.likeCount + 1 })
    ∧ (∀ b c, (toggleLike st slug u).1 = LikeOutcome.ok b c →
        ∃ q, findById (toggleLike st slug u).2.posts p.id = some q
          ∧ c = q.likeCount) := by
  have hres' : st.posts.find?
      (fun r => r.slug == slug && r.status == "published") = some p := hres
  obtain ⟨-, Adec⟩ := find_update_both _
    (fun r => { r with likeCount := r.likeCount - 1 }) st.posts p hres' hid rfl rfl
  obtain ⟨-, Ainc⟩ := find_update_both _
    (fun r => { r with likeCount := r.likeCount + 1 }) st.posts p hres' hid rfl rfl
  refine ⟨?_, ?_, ?_⟩
  · intro hmem
    rw [toggleLike_eq_mem st slug u p hslug hres hid hmem]
    exact ⟨rfl, rfl, Adec⟩
  · intro hmem
    rw [toggleLike_eq_not_mem st slug u p hslug hres hid hmem]
    exact ⟨rfl, rfl, Ainc⟩
  · intro b c h
    by_cases hmem : (p.id, u) ∈ st.likes
    · rw [toggleLike_eq_mem st slug u p hslug hres hid hmem] at h ⊢
      injection h with h1 h2
      exact ⟨{ p with likeCount := p.likeCount - 1 }, Adec, h2.symm⟩
    · rw [toggleLike_eq_not_mem st slug u p hslug hres hid hmem] at h ⊢
      injection h with h1 h2
      exact ⟨{ p with likeCount := p.likeCount + 1 }, Ainc, h2.symm⟩

/-- C6 witness: the theorem at the concrete one-post store, where user
4 has no like marker: the toggle inserts the marker, increments the
count from 5 to 6 and reports liked=true with the freshly stored
value. -/
theorem toggle_like_transition_witness :
    "s" ≠ ""
    ∧ resolvePostBySlug testStore.posts "s" = some testPost
    ∧ findById testStore.posts testPost.id = some testPost
    ∧ (1, 4) ∉ testStore.likes
    ∧ (toggleLike testStore "s" 4).1 = LikeOutcome.ok true 6
    ∧ (toggleLike testStore "s" 4).2.likes = (testPost.id, 4) :: testStore.likes
    ∧ findById (toggleLike testStore "s" 4).2.posts testPost.id
        = some { testPost with likeCount := testPost.likeCount + 1 } := by
  obtain ⟨-, h2, -⟩ :=
    toggle_like_transition testStore "s" 4 testPost
      (by decide) (by decide) (by decide)
  obtain ⟨ha, hb, hc⟩ := h2 (by decide)
  exact ⟨by decide, by decide, by decide, by decide, ha, hb, hc⟩

theorem toggleIter_succ (slug : String) (u : Nat) (n : Nat) (st : Store) :
    toggleIter slug u (n + 1) st
      = toggleIter slug u n (toggleLike st slug u).2 := rfl

theorem post_set_likeCount_eq (p : Post) (x : Int) (h : x = p.likeCount) :
    ({ p with likeCount := x } : Post) = p := by
  cases p with
  | mk i s st v uv lc cc =>
    simp only [Post.mk.injEq]
    simp_all

/-- One like toggle on a well-formed store: the resolved post's
`likeCount` moves by `d = ±1`, the marker's presence flips, `Nodup` of
the marker collection is preserved, and `d` is `+1` exactly when the
marker was absent. -/
theorem toggleLike_step (st : Store) (slug : String) (u : Nat) (p : Post)
    (hslug : ¬ slug = "")
    (hres : resolvePostBySlug st.posts slug = some p)
    (hid : findById st.posts p.id = some p)
    (hnd : st.likes.Nodup) :
    ∃ d : Int,
      resolvePostBySlug (toggleLike st slug u).2.posts slug
          = some { p with likeCount := p.likeCount + d }
      ∧ findById (toggleLike st slug u).2.posts p.id
          = some { p with likeCount := p.likeCount + d }
      ∧ (toggleLike st slug u).2.likes.Nodup
      ∧ ((p.id, u) ∈ (toggleLike st slug u).2.likes ↔ ¬ (p.id, u) ∈ st.likes)
      ∧ (d = 1 ↔ (p.id, u) ∉ st.likes)
      ∧ (d = -1 ↔ (p.id, u) ∈ st.likes) := by
  have hres' : st.posts.find?
      (fun r => r.slug == slug && r.status == "published") = some p := hres
  by_cases hmem : (p.id, u) ∈ st.likes
  · obtain ⟨A1, A2⟩ := find_update_both _
      (fun r => { r with likeCount := r.likeCount - 1 }) st.posts p hres' hid rfl rfl
    refine ⟨-1, ?_, ?_, ?_, ?_, ?_, ?_⟩
    · rw [toggleLike_eq_mem st slug u p hslug hres hid hmem,
        show p.likeCount + (-1 : Int) = p.likeCount - 1 by ring]
      exact A1
    · rw [toggleLike_eq_mem st slug u p hslug hres hid hmem,
        show p.likeCount + (-1 : Int) = p.likeCount - 1 by ring]
      exact A2
    · rw [toggleLike_eq_mem st slug u p hslug hres hid hmem]
      exact deleteOne_nodup _ _ hnd
    · rw [toggleLike_eq_mem st slug u p hslug hres hid hmem]
      simp [not_mem_deleteOne _ _ hnd, hmem]
    · exact ⟨fun h => absurd h (by decide), fun h => absurd hmem h⟩
    · exact ⟨fun _ => hmem, fun _ => rfl⟩
  · obtain ⟨A1, A2⟩ := find_update_both _
      (fun r => { r with likeCount := r.likeCount + 1 }) st.posts p hres' hid rfl rfl
    refine ⟨1, ?_, ?_, ?_, ?_, ?_, ?_⟩
    · rw [toggleLike_eq_not_mem st slug u p hslug hres hid hmem]
      exact A1
    · rw [toggleLike_eq_not_mem st slug u p hslug hres hid hmem]
      exact A2
    · rw [toggleLike_eq_not_mem st slug u p hslug hres hid hmem]
      exact List.nodup_cons.mpr ⟨hmem, hnd⟩
    · rw [toggleLike_eq_not_mem st slug u p hslug hres hid hmem]
      simp [hmem]
    · exact ⟨fun _ => hmem, fun _ => rfl⟩
    · exact ⟨fun h => absurd h (by decide), fun h => absurd h hmem⟩

/-- An even number of like toggles restores the resolved post exactly
and restores the marker's presence, on any well-formed store. -/
theorem toggleIter_even (slug : String) (u : Nat) (hslug : ¬ slug = "") :
    ∀ (n : Nat) (st : Store) (p : Post),
      resolvePostBySlug st.posts slug = some p →
      findById st.posts p.id = some p →
      st.likes.Nodup →
      resolvePostBySlug (toggleIter slug u (2 * n) st).posts slug = some p
      ∧ findById (toggleIter slug u (2 * n) st).posts p.id = some p
      ∧ (toggleIter slug u (2 * n) st).likes.Nodup
      ∧ ((p.id, u) ∈ (toggleIter slug u (2 * n) st).likes
          ↔ (p.id, u) ∈ st.likes) := by
  intro n
  induction n with
  | zero => intro st p h1 h2 h3; exact ⟨h1, h2, h3, Iff.rfl⟩
  | succ n ih =>
    intro st p h1 h2 h3
    obtain ⟨d1, r1, f1, nd1, m1, e1p, e1m⟩ := toggleLike_step st slug u p hslug h1 h2 h3
    obtain ⟨d2, r2, f2, nd2, m2, e2p, e2m⟩ :=
      toggleLike_step (toggleLike st slug u).2 slug u _ hslug r1 f1 nd1
    have hsum : d1 + d2 = 0 := by
      by_cases hmem : (p.id, u) ∈ st.likes
      · have hd1 : d1 = -1 := e1m.mpr hmem
        have hnotm1 : ¬ (p.id, u) ∈ (toggleLike st slug u).2.likes := by
          rw [m1]; simp [hmem]
        have hd2 : d2 = 1 := e2p.mpr hnotm1
        rw [hd1, hd2]; ring
      · have hd1 : d1 = 1 := e1p.mpr hmem
        have hm1 : (p.id, u) ∈ (toggleLike st slug u).2.likes := m1.mpr hmem
        have hd2 : d2 = -1 := e2m.mpr hm1
        rw [hd1, hd2]; ring
    have hcancel :
        ({ p with likeCount := p.likeCount + d1 + d2 } : Post) = p :=
      post_set_likeCount_eq p _ (by omega)
    have r2' : resolvePostBySlug
        (toggleLike (toggleLike st slug u).2 slug u).2.posts slug = some p := by
      have : resolvePostBySlug
          (toggleLike (toggleLike st slug u).2 slug u).2.posts slug
          = some { p with likeCount := p.likeCount + d1 + d2 } := r2
      rwa [hcancel] at this
    have f2' : findById
        (toggleLike (toggleLike st slug u).2 slug u).2.posts p.id = some p := by
      have : findById
          (toggleLike (toggleLike st slug u).2 slug u).2.posts p.id
          = some { p with likeCount := p.likeCount + d1 + d2 } := f2
      rwa [hcancel] at this
    have e : 2 * (n + 1) = 2 * n + 1 + 1 := by ring
    rw [e, toggleIter_succ, toggleIter_succ]
    obtain ⟨g1, g2, g3, g4⟩ := ih (toggleLike (toggleLike st slug u).2 slug u).2 p r2' f2' nd2
    refine ⟨g1, g2, g3, ?_⟩
    rw [g4, m2, m1]
    by_cases hmem : (p.id, u) ∈ st.likes <;> simp [hmem]

/-- C7: like toggling is a strict two-state cycle per (post, user):
from the NotLiked state three consecutive toggles report liked=true,
liked=false, liked=true (with the count moving +1, back, +1), and from
any starting state an even number of toggles restores the post — in
particular its likeCount — exactly. -/
theorem like_toggle_cycle (st : Store) (slug : String) (u : Nat) (p : Post)
    (hslug : slug ≠ "")
    (hres : resolvePostBySlug st.posts slug = some p)
    (hid : findById st.posts p.id = some p)
    (hnd : st.likes.Nodup) :
    ((p.id, u) ∉ st.likes →
       (toggleLike st slug u).1 = LikeOutcome.ok true (p.likeCount + 1)
       ∧ (toggleLike (toggleLike st slug u).2 slug u).1
           = LikeOutcome.ok false p.likeCount
       ∧ (toggleLike (toggleLike (toggleLike st slug u).2 slug u).2 slug u).1
           = LikeOutcome.ok true (p.likeCount + 1))
    ∧ (∀ n, findById (toggleIter slug u (2 * n) st).posts p.id = some p) := by
  constructor
  · intro hmem
    have t1 := toggleLike_eq_not_mem st slug u p hslug hres hid hmem
    obtain ⟨d1, r1, f1, nd1, m1, e1p, e1m⟩ :=
      toggleLike_step st slug u p hslug hres hid hnd
    have hd1 : d1 = 1 := e1p.mpr hmem
    subst hd1
    have mem1 : (p.id, u) ∈ (toggleLike st slug u).2.likes := m1.mpr hmem
    have t2 := toggleLike_eq_mem (toggleLike st slug u).2 slug u
      { p with likeCount := p.likeCount + 1 } hslug r1 f1 mem1
    obtain ⟨d2, r2, f2, nd2, m2, e2p, e2m⟩ :=
      toggleLike_step (toggleLike st slug u).2 slug u _ hslug r1 f1 nd1
    have hd2 : d2 = -1 := e2m.mpr mem1
    subst hd2
    have hcancel : ({ p with likeCount := p.likeCount + 1 + -1 } : Post) = p :=
      post_set_likeCount_eq p _ (by omega)
    have r2' : resolvePostBySlug
        (toggleLike (toggleLike st slug u).2 slug u).2.posts slug = some p := by
      have h2 : resolvePostBySlug
          (toggleLike (toggleLike st slug u).2 slug u).2.posts slug
          = some { p with likeCount := p.likeCount + 1 + -1 } := r2
      rwa [hcancel] at h2
    have f2' : findById
        (toggleLike (toggleLike st slug u).2 slug u).2.posts p.id = some p := by
      have h2 : findById
          (toggleLike (toggleLike st slug u).2 slug u).2.posts p.id
          = some { p with likeCount := p.likeCount + 1 + -1 } := f2
      rwa [hcancel] at h2
    have mem2 : (p.id, u) ∉ (toggleLike (toggleLike st slug u).2 slug u).2.likes :=
      fun hh => (m2.mp hh) mem1
    have t3 := toggleLike_eq_not_mem
      (toggleLike (toggleLike st slug u).2 slug u).2 slug u p hslug r2' f2' mem2
    refine ⟨by rw [t1], ?_, by rw [t3]⟩
    rw [t2]
    show LikeOutcome.ok false (p.likeCount + 1 - 1) = LikeOutcome.ok false p.likeCount
    rw [add_sub_cancel_right]
  · intro n
    exact (toggleIter_even slug u hslug n st p hres hid hnd).2.1

/-- C7 witness: the cycle theorem at the concrete one-post store for
user 4 (initially NotLiked): responses true/false/true at counts
6, 5, 6, and two toggles restore the post record exactly. -/
theorem like_toggle_cycle_witness :
    "s" ≠ ""
    ∧ resolvePostBySlug testStore.posts "s" = some testPost
    ∧ findById testStore.posts testPost.id = some testPost
    ∧ testStore.likes.Nodup
    ∧ (1, 4) ∉ testStore.likes
    ∧ (toggleLike testStore "s" 4).1 = LikeOutcome.ok true 6
    ∧ (toggleLike (toggleLike testStore "s" 4).2 "s" 4).1
        = LikeOutcome.ok false 5
    ∧ (toggleLike (toggleLike (toggleLike testStore "s" 4).2 "s" 4).2 "s" 4).1
        = LikeOutcome.ok true 6
    ∧ findById (toggleIter "s" 4 2 testStore).posts testPost.id = some testPost := by
  obtain ⟨h3, heven⟩ :=
    like_toggle_cycle testStore "s" 4 testPost
      (by decide) (by decide) (by decide) (by decide)
  obtain ⟨o1, o2, o3⟩ := h3 (by decide)
  exact ⟨by decide, by decide, by decide, by decide, by decide, o1, o2, o3,
    heven 1⟩

theorem createComment_eq_badlen (st : Store) (slug : String) (u : Nat)
    (content : String) (newId : Nat) (hslug : ¬ slug = "")
    (hlen : goLen content < 1 ∨ goLen content > 2000) :
    createComment st slug u content newId = (CommentOutcome.err 400, st) := by
  unfold createComment
  rw [if_neg hslug, if_pos hlen]

theorem createComment_eq_nopost (st : Store) (slug : String) (u : Nat)
    (content : String) (newId : Nat) (hslug : ¬ slug = "")
    (hlen : ¬ (goLen content < 1 ∨ goLen content > 2000))
    (hres : resolvePostBySlug st.posts slug = none) :
    createComment st slug u content newId = (CommentOutcome.err 404, st) := by
  simp [createComment, hslug, hlen, hres]
  omega

theorem createComment_eq_ok (st : Store) (slug : String) (u : Nat)
    (content : String) (newId : Nat) (p : Post) (hslug : ¬ slug = "")
    (hlen : ¬ (goLen content < 1 ∨ goLen content > 2000))
    (hres : resolvePostBySlug st.posts slug = some p) :
    createComment st slug u content newId
      = (CommentOutcome.created ⟨newId, p.id, u, content⟩,
         { st with
             comments := st.comments ++ [⟨newId, p.id, u, content⟩],
             posts := updateFirst st.posts p.id
               (fun r => { r with commentCount := r.commentCount + 1 }) }) := by
  simp [createComment, hslug, hlen, hres]
  omega

/-- C8 (amended): comment creation rejects with a client error exactly
when the content's Go length — its UTF-8 BYTE count, not its character
count — is outside [1, 2000] or the parent post does not resolve as a
published post; a rejected request leaves the store untouched (the
length check runs before any store access), and a successful one
inserts the comment record and then increments the post's commentCount
by one, touching nothing else. -/
theorem create_comment_spec (st : Store) (slug : String) (u : Nat)
    (content : String) (newId : Nat) (p : Post)
    (hslug : slug ≠ "") :
    ((goLen content < 1 ∨ goLen content > 2000) →
        createComment st slug u content newId = (CommentOutcome.err 400, st))
    ∧ (1 ≤ goLen content → goLen content ≤ 2000 →
        resolvePostBySlug st.posts slug = none →
        createComment st slug u content newId = (CommentOutcome.err 404, st))
    ∧ (1 ≤ goLen content → goLen content ≤ 2000 →
        resolvePostBySlug st.posts slug = some p →
        findById st.posts p.id = some p →
        (createComment st slug u content newId).1
            = CommentOutcome.created ⟨newId, p.id, u, content⟩
        ∧ (createComment st slug u content newId).2.comments
            = st.comments ++ [⟨newId, p.id, u, content⟩]
        ∧ findById (createComment st slug u content newId).2.posts p.id
            = some { p with commentCount := p.commentCount + 1 }
        ∧ (createComment st slug u content newId).2.views = st.views
        ∧ (createComment st slug u content newId).2.likes = st.likes) := by
  refine ⟨?_, ?_, ?_⟩
  · intro hlen
    exact createComment_eq_badlen st slug u content newId hslug hlen
  · intro h1 h2 hres
    exact createComment_eq_nopost st slug u content newId hslug (by omega) hres
  · intro h1 h2 hres hid
    have hres' : st.posts.find?
        (fun r => r.slug == slug && r.status == "published") = some p := hres
    obtain ⟨-, A2⟩ := find_update_both _
      (fun r => { r with commentCount := r.commentCount + 1 }) st.posts p
      hres' hid rfl rfl
    rw [createComment_eq_ok st slug u content newId p hslug (by omega) hres]
    exact ⟨rfl, rfl, A2, rfl, rfl⟩

/-- C8 witness: a two-byte comment "hi" by user 4 on the concrete store
succeeds, is appended to the comments, and bumps commentCount. -/
theorem create_comment_spec_witness :
    (1 ≤ goLen "hi" ∧ goLen "hi" ≤ 2000)
    ∧ resolvePostBySlug testStore.posts "s" = some testPost
    ∧ findById testStore.posts testPost.id = some testPost
    ∧ (createComment testStore "s" 4 "hi" 9).1
        = CommentOutcome.created ⟨9, 1, 4, "hi"⟩
    ∧ (createComment testStore "s" 4 "hi" 9).2.comments = [⟨9, 1, 4, "hi"⟩]
    ∧ findById (createComment testStore "s" 4 "hi" 9).2.posts 1
        = some { testPost with commentCount := testPost.commentCount + 1 } := by
  obtain ⟨-, -, h3⟩ :=
    create_comment_spec testStore "s" 4 "hi" 9 testPost (by decide)
  obtain ⟨a, b, c, -, -⟩ := h3 (by decide) (by decide) (by decide) (by decide)
  exact ⟨⟨by decide, by decide⟩, by decide, by decide, a, by rw [b]; rfl, c⟩

set_option maxRecDepth 10000 in
/-- C8 counterexample: content of 667 '€' characters (667 characters —
within the claimed [1, 2000] — but 2001 UTF-8 bytes) on an existing
published post is rejected with 400 and nothing is written: the code
validates `len(content)`, Go's byte count, not the character count the
claim states. -/
theorem create_comment_not_chars :
    euroContent.length = 667
    ∧ 1 ≤ euroContent.length ∧ euroContent.length ≤ 2000
    ∧ resolvePostBySlug testStore.posts "s" = some testPost
    ∧ goLen euroContent = 2001
    ∧ createComment testStore "s" 4 euroContent 9
        = (CommentOutcome.err 400, testStore) := by
  refine ⟨by decide, by decide, by decide, by decide, by decide, ?_⟩
  exact createComment_eq_badlen testStore "s" 4 euroContent 9
    (by decide) (Or.inr (by decide))

/-- C9 counterexample: a post-image upload in which every step succeeds
answers 200 and emits the structured log event, but increments no
handler metrics counter — the claim's "metrics counter increment on
every successful upload" fails on the post-image path. -/
theorem upload_post_image_no_metric :
    (uploadPostImage ⟨true, true, true, true, "image/png", true, true, true⟩).status
        = 200
    ∧ (uploadPostImage ⟨true, true, true, true, "image/png", true, true, true⟩).logged
        = true
    ∧ (uploadPostImage
        ⟨true, true, true, true, "image/png", true, true, true⟩).metricIncremented
        = false := by
  refine ⟨?_, ?_, ?_⟩ <;> decide

set_option maxHeartbeats 1000000 in
/-- C9 (amended): on both upload paths a structured log event is
emitted exactly on success, and no failure path emits a log event or a
metrics counter increment; the avatar path also increments its metrics
counter exactly on success, but the post-image path never increments
any handler metrics counter, successful or not. -/
theorem upload_side_effects (ra : AvatarRequest) (rp : PostImageRequest) :
    ((uploadAvatar ra).status = 200 ↔ (uploadAvatar ra).logged = true)
    ∧ ((uploadAvatar ra).status = 200 ↔ (uploadAvatar ra).metricIncremented = true)
    ∧ ((uploadPostImage rp).status = 200 ↔ (uploadPostImage rp).logged = true)
    ∧ (uploadPostImage rp).metricIncremented = false := by
  refine ⟨?_, ?_, ?_, ?_⟩
  · unfold uploadAvatar
    split_ifs <;> simp
  · unfold uploadAvatar
    split_ifs <;> simp
  · unfold uploadPostImage
    split_ifs <;> simp
  · unfold uploadPostImage
    split_ifs <;> simp
